import Mathlib

/-!
Shallow embedding of `src/emtime.py` (the `Timer` class).

The monotonic clock is modelled by passing each `time.perf_counter()`
reading as an explicit rational parameter, in the order the source reads
them.  Mutation of `self` is modelled by returning the updated `Timer`
state.  Operations that can raise `ZeroDivisionError` in Python (a `/` or
`//` with `self._interval` as divisor) return `Option`; all other
operations are total.

Field names follow the source: `_t0` becomes `t0`, `_t_last` becomes
`t_last`, `_t_last_tick` becomes `t_last_tick`, `_accum_time` becomes
`accum_time`, and so on.
-/

structure Timer where
  interval : ℚ
  t0 : ℚ
  t_last : ℚ
  t_last_tick : ℚ
  is_paused : Bool
  has_ticked : Bool
  accum_time : ℚ
  deriving DecidableEq

/-- `Timer.__init__`: three separate `time.perf_counter()` reads initialise
`_t0`, `_t_last`, `_t_last_tick`; no validation of `interval` is performed. -/
def Timer.init (interval : ℚ) (is_paused : Bool) (now1 now2 now3 : ℚ) : Timer :=
  { interval := interval
    t0 := now1
    t_last := now2
    t_last_tick := now3
    is_paused := is_paused
    has_ticked := false
    accum_time := 0 }

/-- `Timer.tick_delta`: two clock reads `now1` (boundary detection) and
`now2` (return value).  Python `//` on a zero divisor raises, hence the
`none` branch; for a nonzero divisor `a // b = ⌊a / b⌋` as a float. -/
def Timer.tick_delta (tm : Timer) (now1 now2 : ℚ) : Option (ℚ × Timer) :=
  if now1 - tm.t_last_tick > tm.interval then
    if tm.interval = 0 then none
    else
      some (now2 - (tm.t_last_tick +
              (⌊(now1 - tm.t_last_tick) / tm.interval⌋ : ℚ) * tm.interval),
            { tm with
                has_ticked := true
                t_last_tick := tm.t_last_tick +
                  (⌊(now1 - tm.t_last_tick) / tm.interval⌋ : ℚ) * tm.interval })
  else
    some (now2 - tm.t_last_tick, tm)

/-- `Timer.tick`: runs `tick_delta` for its side effects, then consumes the
`_has_ticked` flag. -/
def Timer.tick (tm : Timer) (now1 now2 : ℚ) : Option (Bool × Timer) :=
  match tm.tick_delta now1 now2 with
  | none => none
  | some (_, tm1) =>
    if tm1.has_ticked then some (true, { tm1 with has_ticked := false })
    else some (false, tm1)

/-- `Timer.elapsed`: when paused returns `_accum_time` with no clock read;
when running discards `self.tick` (reads `now1`, `now2`) and returns
`(now3 - _t0) + _accum_time` from a third clock read. -/
def Timer.elapsed (tm : Timer) (now1 now2 now3 : ℚ) : Option (ℚ × Timer) :=
  if tm.is_paused then some (tm.accum_time, tm)
  else
    match tm.tick now1 now2 with
    | none => none
    | some (_, tm1) => some ((now3 - tm1.t0) + tm1.accum_time, tm1)

/-- `Timer.elapsed_ticks`: `self.elapsed / self._interval`; a zero divisor
raises in Python, hence `none`. -/
def Timer.elapsed_ticks (tm : Timer) (now1 now2 now3 : ℚ) : Option (ℚ × Timer) :=
  match tm.elapsed now1 now2 now3 with
  | none => none
  | some (v, tm1) =>
    if tm1.interval = 0 then none else some (v / tm1.interval, tm1)

/-- Python `int()` on a real value: truncation toward zero. -/
def truncInt (q : ℚ) : ℤ :=
  if 0 ≤ q then ⌊q⌋ else ⌈q⌉

/-- `Timer.elapsed_ticks_int`: `int(self.elapsed_ticks)`. -/
def Timer.elapsed_ticks_int (tm : Timer) (now1 now2 now3 : ℚ) : Option (ℤ × Timer) :=
  match tm.elapsed_ticks now1 now2 now3 with
  | none => none
  | some (v, tm1) => some (truncInt v, tm1)

/-- `Timer.delta`: one clock read; returns `now - _t_last` and rebases
`_t_last`. -/
def Timer.delta (tm : Timer) (now : ℚ) : ℚ × Timer :=
  (now - tm.t_last, { tm with t_last := now })

/-- `Timer.reset`: sets `_t0` to a fresh clock read, nothing else. -/
def Timer.reset (tm : Timer) (now : ℚ) : Timer :=
  { tm with t0 := now }

/-- `Timer.pause`: `self._accum_time += self.elapsed` then
`self._is_paused = True`.  There is no already-paused guard in the source. -/
def Timer.pause (tm : Timer) (now1 now2 now3 : ℚ) : Option Timer :=
  match tm.elapsed now1 now2 now3 with
  | none => none
  | some (v, tm1) =>
    some { tm1 with accum_time := tm1.accum_time + v, is_paused := true }

/-- `Timer.resume`: clears `_is_paused`, sets `_t0 := now1`, then calls
`reset()` which overwrites `_t0` with a second clock read `now2`. -/
def Timer.resume (tm : Timer) (now1 now2 : ℚ) : Timer :=
  Timer.reset { tm with is_paused := false, t0 := now1 } now2

/-- A concrete running timer used by witnesses: interval 1, all
timestamps 0, nothing banked. -/
def tmEx : Timer :=
  { interval := 1, t0 := 0, t_last := 0, t_last_tick := 0,
    is_paused := false, has_ticked := false, accum_time := 0 }

example : tmEx.tick_delta 2 2 = some (0, ⟨1, 0, 0, 2, false, true, 0⟩) := by
  unfold Timer.tick_delta tmEx
  norm_num

example : tmEx.tick 2 2 = some (true, ⟨1, 0, 0, 2, false, false, 0⟩) := by
  unfold Timer.tick Timer.tick_delta tmEx
  norm_num

example : tmEx.elapsed 2 2 2 = some (2, ⟨1, 0, 0, 2, false, false, 0⟩) := by
  unfold Timer.elapsed Timer.tick Timer.tick_delta tmEx
  norm_num

/-! ## Helper lemmas shared by several claims -/

/-- After a bulk advance by `⌊raw / i⌋` whole intervals the residue is
below one interval. -/
lemma sub_floor_mul_lt (raw i : ℚ) (hi : 0 < i) :
    raw - (⌊raw / i⌋ : ℚ) * i < i := by
  have h1 : raw / i < (⌊raw / i⌋ : ℚ) + 1 := Int.lt_floor_add_one _
  have h2 : raw < ((⌊raw / i⌋ : ℚ) + 1) * i := (div_lt_iff₀ hi).mp h1
  have h3 : ((⌊raw / i⌋ : ℚ) + 1) * i = (⌊raw / i⌋ : ℚ) * i + i := by ring
  linarith

/-- The bulk advance never overshoots the detection read. -/
lemma sub_floor_mul_nonneg (raw i : ℚ) (hi : 0 < i) :
    0 ≤ raw - (⌊raw / i⌋ : ℚ) * i := by
  have h1 : (⌊raw / i⌋ : ℚ) ≤ raw / i := Int.floor_le _
  have h2 : (⌊raw / i⌋ : ℚ) * i ≤ raw := by
    calc (⌊raw / i⌋ : ℚ) * i ≤ (raw / i) * i :=
          mul_le_mul_of_nonneg_right h1 (le_of_lt hi)
      _ = raw := by field_simp
  linarith

/-- `tick_delta` succeeds whenever `interval ≠ 0` and changes nothing but
`has_ticked` and `t_last_tick`. -/
lemma tick_delta_frame (tm : Timer) (n1 n2 : ℚ) (hi : tm.interval ≠ 0) :
    ∃ d tm1, tm.tick_delta n1 n2 = some (d, tm1) ∧
      tm1.interval = tm.interval ∧ tm1.t0 = tm.t0 ∧ tm1.t_last = tm.t_last ∧
      tm1.is_paused = tm.is_paused ∧ tm1.accum_time = tm.accum_time ∧
      d = n2 - tm1.t_last_tick := by
  unfold Timer.tick_delta
  by_cases hb : n1 - tm.t_last_tick > tm.interval
  · rw [if_pos hb, if_neg hi]
    exact ⟨_, _, rfl, rfl, rfl, rfl, rfl, rfl, rfl⟩
  · rw [if_neg hb]
    exact ⟨_, _, rfl, rfl, rfl, rfl, rfl, rfl, rfl⟩

/-- `tick` succeeds whenever `interval ≠ 0`, leaves `has_ticked` cleared,
and changes nothing but `has_ticked` and `t_last_tick`. -/
lemma tick_frame (tm : Timer) (n1 n2 : ℚ) (hi : tm.interval ≠ 0) :
    ∃ b tm1, tm.tick n1 n2 = some (b, tm1) ∧ tm1.has_ticked = false ∧
      tm1.interval = tm.interval ∧ tm1.t0 = tm.t0 ∧ tm1.t_last = tm.t_last ∧
      tm1.is_paused = tm.is_paused ∧ tm1.accum_time = tm.accum_time := by
  obtain ⟨d, tmd, hd, h1, h2, h3, h4, h5, _⟩ := tick_delta_frame tm n1 n2 hi
  unfold Timer.tick
  rw [hd]
  dsimp only
  by_cases hf : tmd.has_ticked
  · rw [if_pos hf]
    exact ⟨true, _, rfl, rfl, h1, h2, h3, h4, h5⟩
  · rw [if_neg hf]
    exact ⟨false, tmd, rfl, Bool.eq_false_iff.mpr hf, h1, h2, h3, h4, h5⟩

/-- Running `elapsed` succeeds whenever `interval ≠ 0`, returns
`(now3 - t0) + accum_time`, and leaves `has_ticked` cleared and every
field other than tick bookkeeping unchanged. -/
lemma elapsed_run (tm : Timer) (n1 n2 n3 : ℚ) (hp : tm.is_paused = false)
    (hi : tm.interval ≠ 0) :
    ∃ tm1, tm.elapsed n1 n2 n3 = some ((n3 - tm.t0) + tm.accum_time, tm1) ∧
      tm1.has_ticked = false ∧ tm1.interval = tm.interval ∧ tm1.t0 = tm.t0 ∧
      tm1.t_last = tm.t_last ∧ tm1.is_paused = false ∧
      tm1.accum_time = tm.accum_time := by
  obtain ⟨b, tm1, ht, hf, h1, h2, h3, h4, h5⟩ := tick_frame tm n1 n2 hi
  refine ⟨tm1, ?_, hf, h1, h2, h3, hp ▸ h4, h5⟩
  unfold Timer.elapsed
  rw [if_neg (by simp [hp]), ht]
  dsimp only
  rw [h2, h5]

/-- Paused `elapsed` returns `accum_time` and is a pure read: the state
comes back unchanged. -/
lemma elapsed_paused (tm : Timer) (n1 n2 n3 : ℚ) (hp : tm.is_paused = true) :
    tm.elapsed n1 n2 n3 = some (tm.accum_time, tm) := by
  unfold Timer.elapsed
  rw [if_pos (by simp [hp])]

/-- `elapsed` succeeds whenever `interval ≠ 0`, and the interval survives. -/
lemma elapsed_total (tm : Timer) (n1 n2 n3 : ℚ) (hi : tm.interval ≠ 0) :
    ∃ v tm1, tm.elapsed n1 n2 n3 = some (v, tm1) ∧
      tm1.interval = tm.interval := by
  by_cases hp : tm.is_paused = true
  · exact ⟨_, _, elapsed_paused tm n1 n2 n3 hp, rfl⟩
  · rw [Bool.not_eq_true] at hp
    obtain ⟨tm1, h, _, h1, _⟩ := elapsed_run tm n1 n2 n3 hp hi
    exact ⟨_, _, h, h1⟩

/-- A tick call that crosses no boundary and finds the flag clear is a
no-op returning `false`. -/
lemma tick_quiet (tm : Timer) (m1 m2 : ℚ) (hf : tm.has_ticked = false)
    (hb : m1 ≤ tm.t_last_tick + tm.interval) :
    tm.tick m1 m2 = some (false, tm) := by
  have hb' : ¬ (m1 - tm.t_last_tick > tm.interval) := by linarith
  unfold Timer.tick Timer.tick_delta
  rw [if_neg hb']
  dsimp only
  rw [if_neg (by simp [hf])]

/-- Claim C1: if the timer is paused, `elapsed` returns `accum_time`,
leaves the state untouched, and therefore returns the same value on every
repeated call while paused; if the timer is running, `elapsed` returns
`(now - t0) + accum_time` for the final clock reading `now`. -/
theorem C1_elapsed (tm : Timer) (n1 n2 n3 m1 m2 m3 : ℚ)
    (hI : 0 < tm.interval) :
    (tm.is_paused = true →
      tm.elapsed n1 n2 n3 = some (tm.accum_time, tm) ∧
      tm.elapsed m1 m2 m3 = some (tm.accum_time, tm)) ∧
    (tm.is_paused = false →
      ∃ tm1, tm.elapsed n1 n2 n3 = some ((n3 - tm.t0) + tm.accum_time, tm1)) := by
  constructor
  · intro hp
    exact ⟨elapsed_paused tm n1 n2 n3 hp, elapsed_paused tm m1 m2 m3 hp⟩
  · intro hp
    obtain ⟨tm1, h, _⟩ := elapsed_run tm n1 n2 n3 hp (ne_of_gt hI)
    exact ⟨tm1, h⟩

/-- Witness for C1 at a concrete running timer. -/
theorem C1_elapsed_witness :
    0 < tmEx.interval ∧
    ((tmEx.is_paused = true →
      tmEx.elapsed 2 2 2 = some (tmEx.accum_time, tmEx) ∧
      tmEx.elapsed 3 3 3 = some (tmEx.accum_time, tmEx)) ∧
    (tmEx.is_paused = false →
      ∃ tm1, tmEx.elapsed 2 2 2 = some ((2 - tmEx.t0) + tmEx.accum_time, tm1))) :=
  ⟨by norm_num [tmEx], C1_elapsed tmEx 2 2 2 3 3 3 (by norm_num [tmEx])⟩

/-- Claim C2: `tick_delta` computes `raw = now1 - t_last_tick`; when
`raw > interval` it sets `has_ticked`, bulk-advances `t_last_tick` by
`⌊raw / interval⌋` whole intervals (after which the residue against the
detection read is in `[0, interval)`, so all whole intervals passed were
consumed, not just one), and returns the second clock reading minus the
advanced `t_last_tick`; otherwise it only returns `now2 - t_last_tick`. -/
theorem C2_tick_delta (tm : Timer) (n1 n2 : ℚ) (hI : 0 < tm.interval) :
    (n1 - tm.t_last_tick > tm.interval →
      tm.tick_delta n1 n2 =
        some (n2 - (tm.t_last_tick +
                (⌊(n1 - tm.t_last_tick) / tm.interval⌋ : ℚ) * tm.interval),
          { tm with
              has_ticked := true
              t_last_tick := tm.t_last_tick +
                (⌊(n1 - tm.t_last_tick) / tm.interval⌋ : ℚ) * tm.interval }) ∧
      0 ≤ n1 - (tm.t_last_tick +
                (⌊(n1 - tm.t_last_tick) / tm.interval⌋ : ℚ) * tm.interval) ∧
      n1 - (tm.t_last_tick +
                (⌊(n1 - tm.t_last_tick) / tm.interval⌋ : ℚ) * tm.interval)
        < tm.interval) ∧
    (¬ (n1 - tm.t_last_tick > tm.interval) →
      tm.tick_delta n1 n2 = some (n2 - tm.t_last_tick, tm)) := by
  constructor
  · intro hb
    refine ⟨?_, ?_, ?_⟩
    · unfold Timer.tick_delta
      rw [if_pos hb, if_neg (ne_of_gt hI)]
    · have h := sub_floor_mul_nonneg (n1 - tm.t_last_tick) tm.interval hI
      linarith
    · have h := sub_floor_mul_lt (n1 - tm.t_last_tick) tm.interval hI
      linarith
  · intro hb
    unfold Timer.tick_delta
    rw [if_neg hb]

/-- Witness for C2 at a concrete state crossing two boundaries at once. -/
theorem C2_tick_delta_witness :
    0 < tmEx.interval ∧
    ((2 - tmEx.t_last_tick > tmEx.interval →
      tmEx.tick_delta 2 2 =
        some (2 - (tmEx.t_last_tick +
                (⌊(2 - tmEx.t_last_tick) / tmEx.interval⌋ : ℚ) * tmEx.interval),
          { tmEx with
              has_ticked := true
              t_last_tick := tmEx.t_last_tick +
                (⌊(2 - tmEx.t_last_tick) / tmEx.interval⌋ : ℚ) * tmEx.interval }) ∧
      0 ≤ 2 - (tmEx.t_last_tick +
                (⌊(2 - tmEx.t_last_tick) / tmEx.interval⌋ : ℚ) * tmEx.interval) ∧
      2 - (tmEx.t_last_tick +
                (⌊(2 - tmEx.t_last_tick) / tmEx.interval⌋ : ℚ) * tmEx.interval)
        < tmEx.interval) ∧
    (¬ ((2 : ℚ) - tmEx.t_last_tick > tmEx.interval) →
      tmEx.tick_delta 2 2 = some (2 - tmEx.t_last_tick, tmEx))) :=
  ⟨by norm_num [tmEx], C2_tick_delta tmEx 2 2 (by norm_num [tmEx])⟩

/-- Rewriting `has_ticked` to the value it already holds is the identity. -/
lemma set_has_ticked_false_eq (tm : Timer) (h : tm.has_ticked = false) :
    ({ tm with has_ticked := false } : Timer) = tm := by
  cases tm
  simp_all

/-- Claim C3: `tick` first runs `tick_delta` for its side effects, returns
true and clears `has_ticked` when the flag was set, otherwise returns
false; however many boundaries were crossed, the one call yields a single
`true` and an immediately following call (no new boundary crossed) returns
`false`. -/
theorem C3_tick (tm : Timer) (n1 n2 m1 m2 : ℚ) (hI : 0 < tm.interval) :
    ∃ b tm1, tm.tick n1 n2 = some (b, tm1) ∧
      tm1.has_ticked = false ∧
      (∀ d tmd, tm.tick_delta n1 n2 = some (d, tmd) →
        b = tmd.has_ticked ∧ tm1 = { tmd with has_ticked := false }) ∧
      (m1 ≤ tm1.t_last_tick + tm1.interval →
        tm1.tick m1 m2 = some (false, tm1)) := by
  obtain ⟨d, tmd, hd, _, _, _, _, _, _⟩ :=
    tick_delta_frame tm n1 n2 (ne_of_gt hI)
  by_cases hf : tmd.has_ticked = true
  · refine ⟨true, { tmd with has_ticked := false }, ?_, rfl, ?_, ?_⟩
    · unfold Timer.tick
      rw [hd]
      dsimp only
      rw [if_pos hf]
    · intro d' tmd' hd'
      rw [hd] at hd'
      obtain ⟨-, rfl⟩ : d = d' ∧ tmd = tmd' := by
        simpa using hd'
      exact ⟨hf.symm, rfl⟩
    · intro hb
      exact tick_quiet _ m1 m2 rfl hb
  · rw [Bool.not_eq_true] at hf
    refine ⟨false, tmd, ?_, hf, ?_, ?_⟩
    · unfold Timer.tick
      rw [hd]
      dsimp only
      rw [if_neg (by simp [hf])]
    · intro d' tmd' hd'
      rw [hd] at hd'
      obtain ⟨-, rfl⟩ : d = d' ∧ tmd = tmd' := by
        simpa using hd'
      exact ⟨hf.symm, (set_has_ticked_false_eq tmd hf).symm⟩
    · intro hb
      exact tick_quiet tmd m1 m2 hf hb

/-- Witness for C3 at a concrete state that skipped two boundaries. -/
theorem C3_tick_witness :
    0 < tmEx.interval ∧
    (∃ b tm1, tmEx.tick 2 2 = some (b, tm1) ∧
      tm1.has_ticked = false ∧
      (∀ d tmd, tmEx.tick_delta 2 2 = some (d, tmd) →
        b = tmd.has_ticked ∧ tm1 = { tmd with has_ticked := false }) ∧
      (3 ≤ tm1.t_last_tick + tm1.interval →
        tm1.tick 3 3 = some (false, tm1))) :=
  ⟨by norm_num [tmEx], C3_tick tmEx 2 2 3 3 (by norm_num [tmEx])⟩

/-- Counterexample to claim C4: in the running state `elapsed` reads the
consuming accessor `tick`, not `tick_delta`, so after an `elapsed` call
that crossed a boundary `has_ticked` is `false`, while a `tick_delta`
call from the same state and readings leaves `has_ticked` `true`. -/
theorem C4_counterexample :
    (tmEx.tick_delta 2 2).map (fun x => x.2.has_ticked) = some true ∧
    (tmEx.elapsed 2 2 2).map (fun x => x.2.has_ticked) = some false := by
  constructor
  · unfold Timer.tick_delta tmEx
    norm_num
  · unfold Timer.elapsed Timer.tick Timer.tick_delta tmEx
    norm_num

/-- Claim C4 as amended: in the running state `elapsed` performs the
tick-boundary check via the consuming accessor `tick`: `t_last_tick` ends
exactly as `tick_delta` would leave it, but `has_ticked` is always `false`
afterwards (the flag is consumed, not left set), and the side effect does
not change the returned value; in the paused state no bookkeeping happens
at all. -/
theorem C4_elapsed_bookkeeping (tm : Timer) (n1 n2 n3 : ℚ)
    (hI : 0 < tm.interval) :
    (tm.is_paused = true → tm.elapsed n1 n2 n3 = some (tm.accum_time, tm)) ∧
    (tm.is_paused = false →
      ∃ d tmd tm1, tm.tick_delta n1 n2 = some (d, tmd) ∧
        tm.elapsed n1 n2 n3 = some ((n3 - tm.t0) + tm.accum_time, tm1) ∧
        tm1.t_last_tick = tmd.t_last_tick ∧
        tm1.has_ticked = false) := by
  constructor
  · exact elapsed_paused tm n1 n2 n3
  · intro hp
    obtain ⟨d, tmd, hd, _, h2, _, _, h5, _⟩ :=
      tick_delta_frame tm n1 n2 (ne_of_gt hI)
    by_cases hf : tmd.has_ticked = true
    · refine ⟨d, tmd, { tmd with has_ticked := false }, hd, ?_, rfl, rfl⟩
      unfold Timer.elapsed Timer.tick
      rw [if_neg (by simp [hp]), hd]
      dsimp only
      rw [if_pos hf]
      dsimp only
      rw [h2, h5]
    · rw [Bool.not_eq_true] at hf
      refine ⟨d, tmd, tmd, hd, ?_, rfl, hf⟩
      unfold Timer.elapsed Timer.tick
      rw [if_neg (by simp [hp]), hd]
      dsimp only
      rw [if_neg (by simp [hf])]
      dsimp only
      rw [h2, h5]

/-- Witness for the amended C4 at a concrete running timer. -/
theorem C4_elapsed_bookkeeping_witness :
    0 < tmEx.interval ∧
    ((tmEx.is_paused = true →
      tmEx.elapsed 2 2 2 = some (tmEx.accum_time, tmEx)) ∧
    (tmEx.is_paused = false →
      ∃ d tmd tm1, tmEx.tick_delta 2 2 = some (d, tmd) ∧
        tmEx.elapsed 2 2 2 = some ((2 - tmEx.t0) + tmEx.accum_time, tm1) ∧
        tm1.t_last_tick = tmd.t_last_tick ∧
        tm1.has_ticked = false)) :=
  ⟨by norm_num [tmEx], C4_elapsed_bookkeeping tmEx 2 2 2 (by norm_num [tmEx])⟩

/-- A concrete paused timer with 3 seconds banked, used by witnesses. -/
def tmP : Timer :=
  { interval := 1, t0 := 0, t_last := 0, t_last_tick := 0,
    is_paused := true, has_ticked := false, accum_time := 3 }

/-- Claim C5: `pause` adds the current `elapsed` value to `accum_time` and
then sets `is_paused`; on an already-paused timer with banked value `a`
this doubles the bank to `2 * a`, since paused `elapsed` returns
`accum_time`.  The source has no already-paused guard. -/
theorem C5_pause (tm : Timer) (n1 n2 n3 : ℚ) :
    (∀ v tm1, tm.elapsed n1 n2 n3 = some (v, tm1) →
      tm.pause n1 n2 n3 =
        some { tm1 with accum_time := tm1.accum_time + v, is_paused := true }) ∧
    (tm.is_paused = true →
      ∃ tmp, tm.pause n1 n2 n3 = some tmp ∧ tmp.is_paused = true ∧
        tmp.accum_time = 2 * tm.accum_time) := by
  constructor
  · intro v tm1 he
    unfold Timer.pause
    rw [he]
  · intro hp
    have h : tm.pause n1 n2 n3 =
        some { tm with accum_time := tm.accum_time + tm.accum_time,
                       is_paused := true } := by
      unfold Timer.pause
      rw [elapsed_paused tm n1 n2 n3 hp]
    exact ⟨_, h, rfl, by dsimp only; ring⟩

/-- Witness for C5: double-banking on a concrete paused timer. -/
theorem C5_pause_witness :
    tmP.is_paused = true ∧
    (∃ tmp, tmP.pause 0 0 0 = some tmp ∧ tmp.is_paused = true ∧
      tmp.accum_time = 2 * tmP.accum_time) :=
  ⟨rfl, (C5_pause tmP 0 0 0).2 rfl⟩

/-- Claim C6: `resume` clears `is_paused`, rebases `t0` to the current
clock reading (the second capture wins) and keeps `accum_time`; after a
further running span of `t` seconds, `elapsed` returns the banked value
plus `t`. -/
theorem C6_resume (tm : Timer) (n1 n2 t m1 m2 : ℚ) (hI : 0 < tm.interval) :
    (tm.resume n1 n2).is_paused = false ∧
    (tm.resume n1 n2).t0 = n2 ∧
    (tm.resume n1 n2).accum_time = tm.accum_time ∧
    ∃ tm1, (tm.resume n1 n2).elapsed m1 m2 (n2 + t) =
      some (tm.accum_time + t, tm1) := by
  refine ⟨rfl, rfl, rfl, ?_⟩
  obtain ⟨tm1, h, _⟩ := elapsed_run (tm.resume n1 n2) m1 m2 (n2 + t) rfl
    (by exact ne_of_gt hI)
  have hv : ((n2 + t) - (tm.resume n1 n2).t0) + (tm.resume n1 n2).accum_time
      = tm.accum_time + t := by
    show ((n2 + t) - n2) + tm.accum_time = tm.accum_time + t
    ring
  rw [hv] at h
  exact ⟨tm1, h⟩

/-- Witness for C6 at a concrete paused timer with 3 seconds banked,
resumed at time 5 and read 2 seconds later. -/
theorem C6_resume_witness :
    0 < tmP.interval ∧
    ((tmP.resume 5 5).is_paused = false ∧
    (tmP.resume 5 5).t0 = 5 ∧
    (tmP.resume 5 5).accum_time = tmP.accum_time ∧
    ∃ tm1, (tmP.resume 5 5).elapsed 6 6 (5 + 2) =
      some (tmP.accum_time + 2, tm1)) :=
  ⟨by norm_num [tmP], C6_resume tmP 5 5 2 6 6 (by norm_num [tmP])⟩

/-- Claim C7: `reset` only rebases `t0`: every other field is unchanged;
while running an immediate `elapsed` read at the reset instant returns
`accum_time` (toward 0 when nothing is banked), and while paused `elapsed`
is unaffected, still returning `accum_time` with the state unchanged. -/
theorem C7_reset (tm : Timer) (now m1 m2 m3 : ℚ) (hI : 0 < tm.interval) :
    (tm.reset now).t0 = now ∧
    (tm.reset now).interval = tm.interval ∧
    (tm.reset now).accum_time = tm.accum_time ∧
    (tm.reset now).is_paused = tm.is_paused ∧
    (tm.reset now).t_last = tm.t_last ∧
    (tm.reset now).t_last_tick = tm.t_last_tick ∧
    (tm.reset now).has_ticked = tm.has_ticked ∧
    (tm.is_paused = false →
      ∃ tm1, (tm.reset now).elapsed m1 m2 now = some (tm.accum_time, tm1)) ∧
    (tm.is_paused = true →
      (tm.reset now).elapsed m1 m2 m3 = some (tm.accum_time, tm.reset now)) := by
  refine ⟨rfl, rfl, rfl, rfl, rfl, rfl, rfl, ?_, ?_⟩
  · intro hp
    obtain ⟨tm1, h, _⟩ := elapsed_run (tm.reset now) m1 m2 now hp
      (by exact ne_of_gt hI)
    have hv : (now - (tm.reset now).t0) + (tm.reset now).accum_time
        = tm.accum_time := by
      show (now - now) + tm.accum_time = tm.accum_time
      ring
    rw [hv] at h
    exact ⟨tm1, h⟩
  · intro hp
    exact elapsed_paused (tm.reset now) m1 m2 m3 hp

/-- Witness for C7 at a concrete running timer reset at time 5. -/
theorem C7_reset_witness :
    0 < tmEx.interval ∧
    ((tmEx.reset 5).t0 = 5 ∧
    (tmEx.reset 5).interval = tmEx.interval ∧
    (tmEx.reset 5).accum_time = tmEx.accum_time ∧
    (tmEx.reset 5).is_paused = tmEx.is_paused ∧
    (tmEx.reset 5).t_last = tmEx.t_last ∧
    (tmEx.reset 5).t_last_tick = tmEx.t_last_tick ∧
    (tmEx.reset 5).has_ticked = tmEx.has_ticked ∧
    (tmEx.is_paused = false →
      ∃ tm1, (tmEx.reset 5).elapsed 5 5 5 = some (tmEx.accum_time, tm1)) ∧
    (tmEx.is_paused = true →
      (tmEx.reset 5).elapsed 5 5 5 = some (tmEx.accum_time, tmEx.reset 5))) :=
  ⟨by norm_num [tmEx], C7_reset tmEx 5 5 5 5 (by norm_num [tmEx])⟩

/-- Claim C8: under shared clock readings `elapsed_ticks` is
`elapsed / interval` and `elapsed_ticks_int` is `int()` of it, i.e.
truncation toward zero; when `elapsed` is nonnegative the truncation
coincides with the floor. -/
theorem C8_elapsed_ticks (tm : Timer) (n1 n2 n3 : ℚ) (hI : 0 < tm.interval) :
    ∀ v tm1, tm.elapsed n1 n2 n3 = some (v, tm1) →
      tm.elapsed_ticks n1 n2 n3 = some (v / tm.interval, tm1) ∧
      tm.elapsed_ticks_int n1 n2 n3 = some (truncInt (v / tm.interval), tm1) ∧
      (0 ≤ v → truncInt (v / tm.interval) = ⌊v / tm.interval⌋) := by
  intro v tm1 he
  have hint : tm1.interval = tm.interval := by
    by_cases hp : tm.is_paused = true
    · rw [elapsed_paused tm n1 n2 n3 hp] at he
      obtain ⟨-, rfl⟩ : tm.accum_time = v ∧ tm = tm1 := by simpa using he
      rfl
    · rw [Bool.not_eq_true] at hp
      obtain ⟨tm1', h', _, h1, _⟩ := elapsed_run tm n1 n2 n3 hp (ne_of_gt hI)
      rw [h'] at he
      obtain ⟨-, rfl⟩ : (n3 - tm.t0) + tm.accum_time = v ∧ tm1' = tm1 := by
        simpa using he
      exact h1
  have hticks : tm.elapsed_ticks n1 n2 n3 = some (v / tm.interval, tm1) := by
    unfold Timer.elapsed_ticks
    rw [he]
    dsimp only
    rw [if_neg (by rw [hint]; exact ne_of_gt hI), hint]
  refine ⟨hticks, ?_, ?_⟩
  · unfold Timer.elapsed_ticks_int
    rw [hticks]
  · intro hv
    unfold truncInt
    rw [if_pos (div_nonneg hv (le_of_lt hI))]

/-- Witness for C8 at a concrete running timer two intervals in. -/
theorem C8_elapsed_ticks_witness :
    0 < tmEx.interval ∧
    tmEx.elapsed 2 2 2 = some (2, ⟨1, 0, 0, 2, false, false, 0⟩) ∧
    (tmEx.elapsed_ticks 2 2 2 =
      some (2 / tmEx.interval, ⟨1, 0, 0, 2, false, false, 0⟩) ∧
     tmEx.elapsed_ticks_int 2 2 2 =
      some (truncInt (2 / tmEx.interval), ⟨1, 0, 0, 2, false, false, 0⟩) ∧
     (0 ≤ (2 : ℚ) →
      truncInt (2 / tmEx.interval) = ⌊(2 : ℚ) / tmEx.interval⌋)) := by
  have he : tmEx.elapsed 2 2 2 = some (2, ⟨1, 0, 0, 2, false, false, 0⟩) := by
    unfold Timer.elapsed Timer.tick Timer.tick_delta tmEx
    norm_num
  exact ⟨by norm_num [tmEx], he,
    C8_elapsed_ticks tmEx 2 2 2 (by norm_num [tmEx]) 2 _ he⟩

/-- Claim C9: with `interval > 0` every operation succeeds — the divisions
by `interval` inside `elapsed_ticks` and `tick_delta` (and everything built
on them) never hit the zero-divisor branch — and the constructor accepts
any `interval` without validation. -/
theorem C9_no_failure (tm : Timer) (n1 n2 n3 : ℚ) (hI : 0 < tm.interval) :
    (∃ x, tm.tick_delta n1 n2 = some x) ∧
    (∃ x, tm.tick n1 n2 = some x) ∧
    (∃ x, tm.elapsed n1 n2 n3 = some x) ∧
    (∃ x, tm.elapsed_ticks n1 n2 n3 = some x) ∧
    (∃ x, tm.elapsed_ticks_int n1 n2 n3 = some x) ∧
    (∃ x, tm.pause n1 n2 n3 = some x) ∧
    (∀ i p m1 m2 m3, (Timer.init i p m1 m2 m3).interval = i) := by
  have hi := ne_of_gt hI
  obtain ⟨d, tmd, hd, _⟩ := tick_delta_frame tm n1 n2 hi
  obtain ⟨b, tmb, hb, _⟩ := tick_frame tm n1 n2 hi
  obtain ⟨v, tm1, he, hint⟩ := elapsed_total tm n1 n2 n3 hi
  have hticks : tm.elapsed_ticks n1 n2 n3 = some (v / tm1.interval, tm1) := by
    unfold Timer.elapsed_ticks
    rw [he]
    dsimp only
    rw [if_neg (by rw [hint]; exact hi)]
  have hticksInt : tm.elapsed_ticks_int n1 n2 n3 =
      some (truncInt (v / tm1.interval), tm1) := by
    unfold Timer.elapsed_ticks_int
    rw [hticks]
  have hpause : tm.pause n1 n2 n3 =
      some { tm1 with accum_time := tm1.accum_time + v, is_paused := true } := by
    unfold Timer.pause
    rw [he]
  exact ⟨⟨_, hd⟩, ⟨_, hb⟩, ⟨_, he⟩, ⟨_, hticks⟩, ⟨_, hticksInt⟩, ⟨_, hpause⟩,
    fun _ _ _ _ _ => rfl⟩

/-- Witness for C9 at a concrete running timer. -/
theorem C9_no_failure_witness :
    0 < tmEx.interval ∧
    ((∃ x, tmEx.tick_delta 2 2 = some x) ∧
    (∃ x, tmEx.tick 2 2 = some x) ∧
    (∃ x, tmEx.elapsed 2 2 2 = some x) ∧
    (∃ x, tmEx.elapsed_ticks 2 2 2 = some x) ∧
    (∃ x, tmEx.elapsed_ticks_int 2 2 2 = some x) ∧
    (∃ x, tmEx.pause 2 2 2 = some x) ∧
    (∀ i p m1 m2 m3, (Timer.init i p m1 m2 m3).interval = i)) :=
  ⟨by norm_num [tmEx], C9_no_failure tmEx 2 2 2 (by norm_num [tmEx])⟩

/-- Claim C10 (implicit): `elapsed` in the running state and `pause` from
the running state consume the tick flag — `has_ticked` is `false` after
the call, and a subsequent `tick` that crosses no new boundary returns
`false`. -/
theorem C10_consume (tm : Timer) (n1 n2 n3 m1 m2 : ℚ)
    (hp : tm.is_paused = false) (hI : 0 < tm.interval) :
    (∀ v tm1, tm.elapsed n1 n2 n3 = some (v, tm1) →
      tm1.has_ticked = false ∧
      (m1 ≤ tm1.t_last_tick + tm1.interval →
        tm1.tick m1 m2 = some (false, tm1))) ∧
    (∀ tmp, tm.pause n1 n2 n3 = some tmp → tmp.has_ticked = false) := by
  obtain ⟨tm1', h', hf, _⟩ := elapsed_run tm n1 n2 n3 hp (ne_of_gt hI)
  constructor
  · intro v tm1 he
    rw [h'] at he
    obtain ⟨-, rfl⟩ : (n3 - tm.t0) + tm.accum_time = v ∧ tm1' = tm1 := by
      simpa using he
    exact ⟨hf, fun hbnd => tick_quiet tm1' m1 m2 hf hbnd⟩
  · intro tmp hpp
    unfold Timer.pause at hpp
    rw [h'] at hpp
    dsimp only at hpp
    rw [Option.some.injEq] at hpp
    rw [← hpp]
    exact hf

/-- Witness for C10 at a concrete running timer that crossed two
boundaries. -/
theorem C10_consume_witness :
    tmEx.is_paused = false ∧ 0 < tmEx.interval ∧
    ((∀ v tm1, tmEx.elapsed 2 2 2 = some (v, tm1) →
      tm1.has_ticked = false ∧
      (3 ≤ tm1.t_last_tick + tm1.interval →
        tm1.tick 3 3 = some (false, tm1))) ∧
    (∀ tmp, tmEx.pause 2 2 2 = some tmp → tmp.has_ticked = false)) :=
  ⟨rfl, by norm_num [tmEx], C10_consume tmEx 2 2 2 3 3 rfl (by norm_num [tmEx])⟩
